import Mathlib

/-!
Shallow embedding of the semantic-analysis and TAC-generation core of the
SnuPL compiler (src/5.Code.Generation/snuplc/src/ast.cpp), together with
proofs settling the frozen claims about it.

The AST node classes, their TypeCheck methods and their ToTac lowering
methods are translated from ast.cpp.  The collaborators that the spec
declares out of scope (the type-descriptor registry, the symbol table and
the TAC instruction classes, which are not under src/) are modelled from
the spec where their behaviour is needed: those definitions carry a
`Modelled from the spec:` remark in their doc comment.
-/

namespace Snupl

/-- Modelled from the spec: the operation vocabulary of AST operators and
TAC opcodes (`EOperation` in the missing tac/ast headers).  The spec lists
the arithmetic, logical, relational, unary and special operators and the
TAC opcodes `assign`, `goto`, `call`, `param`, `return`, `address-of`. -/
inductive EOperation where
  | opAdd | opSub | opMul | opDiv
  | opAnd | opOr
  | opEqual | opNotEqual
  | opLessThan | opLessEqual | opBiggerThan | opBiggerEqual
  | opNeg | opPos | opNot
  | opAddress | opDeref | opCast
  | opAssign | opGoto | opCall | opParam | opReturn
  deriving DecidableEq, Repr

/-- Modelled from the spec: the six relational operators, which lower as
conditional jump instructions (`IsRelOp` in the missing tac header). -/
def IsRelOp (op : EOperation) : Bool :=
  match op with
  | .opEqual | .opNotEqual | .opLessThan | .opLessEqual
  | .opBiggerThan | .opBiggerEqual => true
  | _ => false

/-- Modelled from the spec: the type descriptors of the type-descriptor
registry (type.cpp is not under src/).  Scalar set integer, boolean,
character; composite pointer-to-T and array-of-T with optional extent; a
distinguished null type marks "no value".  An n-dimensional array is a
nesting of array descriptors, as consumed by the `GetInnerType` loop in
`CAstArrayDesignator::GetType`. -/
inductive CType where
  | tInt
  | tBool
  | tChar
  | tNull
  | tPtr (base : CType)
  | tArray (nelem : Option Nat) (inner : CType)
  deriving DecidableEq, Repr

namespace CType

/-- Modelled from the spec: pointer is classified scalar ("pointer-typed
operands are allowed here only insofar as pointer is classified scalar"). -/
def IsScalar : CType → Bool
  | .tInt | .tBool | .tChar | .tPtr _ => true
  | _ => false

/-- Modelled from the spec: `IsPointer` of the type registry. -/
def IsPointer : CType → Bool
  | .tPtr _ => true
  | _ => false

/-- Modelled from the spec: `IsArray` of the type registry. -/
def IsArray : CType → Bool
  | .tArray _ _ => true
  | _ => false

/-- Modelled from the spec: `IsNull` of the type registry (true exactly on
the distinguished null type). -/
def IsNull : CType → Bool
  | .tNull => true
  | _ => false

/-- Modelled from the spec: `Match` is structural equality on type
descriptors ("compared only by structural Match"). -/
def Match (a b : CType) : Bool := a = b

/-- Modelled from the spec: `CArrayType::GetNDim`, the declared
dimensionality of a (nested) array descriptor; 0 on non-arrays. -/
def ndim : CType → Nat
  | .tArray _ inner => 1 + inner.ndim
  | _ => 0

/-- Modelled from the spec: `CArrayType::GetInnerType` composed down to the
ultimate element type (`CArrayType::GetBaseType`); the identity on
non-arrays. -/
def GetBaseType : CType → CType
  | .tArray _ inner => inner.GetBaseType
  | t => t

/-- Modelled from the spec: `CType::GetSize` in bytes.  Only the size of
the ultimate element type of an array is consumed by the lowering in
ast.cpp, and the theorems keep it symbolic, so the concrete values matter
only to concrete witnesses. -/
def GetSize : CType → Int
  | .tInt => 4
  | .tBool => 1
  | .tChar => 1
  | .tNull => 0
  | .tPtr _ => 4
  | .tArray (some n) inner => n * inner.GetSize
  | .tArray none _ => 0

/-- Modelled from the spec: the textual rendering of a type descriptor
used in diagnostics (`operator<<` on `CType`, not under src/). -/
def render : CType → String
  | .tInt => "integer"
  | .tBool => "boolean"
  | .tChar => "char"
  | .tNull => "NULL"
  | .tPtr base => "ptr to " ++ base.render
  | .tArray (some n) inner => toString n ++ " x " ++ inner.render
  | .tArray none inner => "open array of " ++ inner.render

end CType

/-- A `const CType*` in the C++ sources: either a descriptor or the NULL
pointer (`none`). -/
abbrev CTypeP := Option CType

/-- Rendering of a possibly-NULL type pointer: the sources print the type
when the pointer is non-NULL and the string `<INVALID>` otherwise. -/
def renderOpt : CTypeP → String
  | some t => t.render
  | none => "<INVALID>"

/-- `t != NULL && t->IsScalar()` on a type pointer. -/
def isScalarOpt : CTypeP → Bool
  | some t => t.IsScalar
  | none => false

/-- `t != NULL && t->IsPointer()` on a type pointer. -/
def isPointerOpt : CTypeP → Bool
  | some t => t.IsPointer
  | none => false

/-- `a != NULL && a->Match(b)` where `b` is known non-NULL. -/
def matchOpt : CTypeP → CType → Bool
  | some a, b => a.Match b
  | none, _ => false

/-- Modelled from the spec: `CTypeManager::GetPointer` applied to a
possibly-NULL base type pointer; a NULL base is modelled as a pointer to
the null type. -/
def GetPointerOpt (t : CTypeP) : CType := .tPtr (t.getD .tNull)

/-- The implicit dereferencing of a pointer-to-array symbol performed at
the top of both `CAstArrayDesignator::GetType` and
`CAstArrayDesignator::ToTac`. -/
def stripPtr : CType → CType
  | .tPtr base => base
  | t => t

/-- Modelled from the spec: a non-procedure symbol of the symbol table
(name and declared data type). -/
structure CSymbol where
  name : String
  dataType : CType
  deriving DecidableEq, Repr

/-- Modelled from the spec: a procedure/function symbol (`CSymProc`): a
name, the ordered parameter data types, and the return data type (the null
type for procedures, non-null for functions). -/
structure CSymProc where
  name : String
  returnType : CType
  params : List CType
  deriving DecidableEq, Repr

/-- The expression variants of the AST node model in ast.cpp
(`CAstExpression` and its concrete subclasses; string constants are not
needed by any claim and are omitted).  Every node carries its source
token, modelled as a number (`CToken`, not under src/, is only compared
and reported).  A constant carries a possibly-NULL type pointer and a
`long long` value, an array designator its symbol and index expression
list, a function call its procedure symbol and argument list, a special
op its optional cast target type — all exactly the fields the ast.cpp
methods consult. -/
inductive Expr where
  | constant (tok : Nat) (typ : CTypeP) (value : Int)
  | designator (tok : Nat) (sym : CSymbol)
  | arrayDesignator (tok : Nat) (sym : CSymbol) (indices : List Expr)
  | binaryOp (tok : Nat) (op : EOperation) (left right : Expr)
  | unaryOp (tok : Nat) (op : EOperation) (operand : Expr)
  | specialOp (tok : Nat) (op : EOperation) (operand : Expr) (castType : CTypeP)
  | functionCall (tok : Nat) (sym : CSymProc) (args : List Expr)
  deriving Repr

namespace Expr

/-- `CAstNode::GetToken`. -/
def token : Expr → Nat
  | .constant tok _ _ => tok
  | .designator tok _ => tok
  | .arrayDesignator tok _ _ => tok
  | .binaryOp tok _ _ _ => tok
  | .unaryOp tok _ _ => tok
  | .specialOp tok _ _ _ => tok
  | .functionCall tok _ _ => tok

/-- `dynamic_cast<CAstConstant*>(e) != NULL`. -/
def isConstant : Expr → Bool
  | .constant _ _ _ => true
  | _ => false

/-- The loop body of `CAstArrayDesignator::GetType`: strip `k` array
levels via `GetInnerType`, turning NULL (`none`) as soon as a non-array is
reached before the count is exhausted. -/
def stripInner : Nat → CType → CTypeP
  | 0, t => some t
  | k + 1, .tArray _ inner => stripInner k inner
  | _ + 1, _ => none

/-- `GetType` of each expression node, translated case by case from
ast.cpp.  A C++ NULL result is `none`.
* constant: the stored type pointer;
* designator: the symbol's data type;
* array designator: implicitly dereference a pointer symbol, require an
  array, require no more indices than its dimensionality, then strip one
  array level per index (mirroring the loop with its non-array check);
* binary/unary op: determined by the operator alone;
* special op: pointer-to-operand-type for address-of, the pointed-to type
  for dereference of a pointer (NULL otherwise), the target type for cast;
* function call: the procedure symbol's data (return) type. -/
def GetType : Expr → CTypeP
  | .constant _ typ _ => typ
  | .designator _ sym => some sym.dataType
  | .arrayDesignator _ sym idxs =>
      let symbolType := stripPtr sym.dataType
      if !symbolType.IsArray then none
      else if idxs.length > symbolType.ndim then none
      else stripInner idxs.length symbolType
  | .binaryOp _ op _ _ =>
      match op with
      | .opAdd | .opSub | .opMul | .opDiv => some .tInt
      | .opAnd | .opOr | .opEqual | .opNotEqual
      | .opLessThan | .opLessEqual | .opBiggerThan | .opBiggerEqual => some .tBool
      | _ => none
  | .unaryOp _ op _ =>
      match op with
      | .opNeg | .opPos => some .tInt
      | .opNot => some .tBool
      | _ => none
  | .specialOp _ op operand castType =>
      match op with
      | .opAddress => some (GetPointerOpt operand.GetType)
      | .opDeref =>
          match operand.GetType with
          | some (.tPtr base) => some base
          | _ => none
      | .opCast => castType
      | _ => none
  | .functionCall _ sym _ => some sym.returnType

end Expr

/-- A type-check failure: the reported token and the diagnostic message
(the C++ out-parameters `CToken *t` and `string *msg`). -/
abbrev TCErr := Nat × String

mutual

/-- `TypeCheck` of each expression node, translated case by case from
ast.cpp (first-error propagation is the `Except` bind):
* `CAstConstant::TypeCheck`: reject a NULL or null type, reject the value
  `2^31` (the carve-out for the minimum integer lives in the unary-op
  case below);
* `CAstDesignator::TypeCheck`: reject a NULL or null resolved type;
* `CAstArrayDesignator::TypeCheck`: check every index expression and its
  integer type — nothing else;
* `CAstBinaryOp::TypeCheck`: both operands, then non-scalar, pointer,
  mismatch and operator-domain checks, in source order;
* `CAstUnaryOp::TypeCheck`: an operand failure is suppressed when the
  operand is a constant node and the operator is unary minus; then the
  operator-domain check;
* `CAstSpecialOp::TypeCheck`: the operand, then for dereference that its
  type is a pointer;
* `CAstFunctionCall::TypeCheck`: argument count, then each argument and
  its match with the signature, left to right. -/
def Expr.TypeCheck : Expr → Except TCErr Unit
  | .constant tok typ v =>
      if typ = none ∨ typ = some .tNull then
        .error (tok, "invalid constant type.")
      else if v = 2 ^ 31 then
        .error (tok, "invalid number. (" ++ toString v ++ ")\n")
      else
        .ok ()
  | .designator tok sym =>
      if sym.dataType.IsNull then
        .error (tok, "invalid designator type.")
      else
        .ok ()
  | .arrayDesignator _ _ idxs => tcIndices idxs
  | .binaryOp tok op l r => do
      l.TypeCheck
      r.TypeCheck
      let lt := l.GetType
      let rt := r.GetType
      if !isScalarOpt lt then
        .error (l.token, "the type of left operand is not scalar type.\n" ++
          "left operand : " ++ renderOpt lt ++ "\n")
      else if !isScalarOpt rt then
        .error (r.token, "the type of right operand is not scalar type.\n" ++
          "right operand : " ++ renderOpt rt ++ "\n")
      else if isPointerOpt lt then
        .error (l.token, "the type of left operand cannot be a pointer type")
      else if isPointerOpt rt then
        .error (r.token, "the type of right operand cannot be a pointer type")
      else if !matchOpt lt (rt.getD .tNull) then
        .error (tok,
          "the type of left operand does not match with the type of right operand.\n" ++
          "left operand : " ++ renderOpt lt ++ "\n" ++
          "right operand : " ++ renderOpt rt ++ "\n")
      else
        match op with
        | .opAdd | .opSub | .opMul | .opDiv =>
            if !matchOpt lt .tInt then
              .error (l.token, "the type of operands should be an integer type " ++
                "in this operation.\n" ++
                "left operand : " ++ renderOpt lt ++ "\n" ++
                "right operand : " ++ renderOpt rt ++ "\n")
            else .ok ()
        | .opAnd | .opOr =>
            if !matchOpt lt .tBool then
              .error (l.token, "the type of operands should be an boolean type " ++
                "in this operation.\n" ++
                "left operand : " ++ renderOpt lt ++ "\n" ++
                "right operand : " ++ renderOpt rt ++ "\n")
            else .ok ()
        | .opEqual | .opNotEqual => .ok ()
        | .opLessThan | .opLessEqual | .opBiggerThan | .opBiggerEqual =>
            if matchOpt lt .tBool then
              .error (l.token, "the type of operands cannot be boolean type " ++
                "in this operation.\n" ++
                "left operand : " ++ renderOpt lt ++ "\n" ++
                "right operand : " ++ renderOpt rt ++ "\n")
            else .ok ()
        | _ => .error (l.token, "the operation is not valid.\n")
  | .unaryOp tok op e =>
      match e.TypeCheck with
      | .error err =>
          -- ignore the operand's type-checking failure if the operand is a
          -- constant node and the operation is unary minus
          if e.isConstant && op = .opNeg then .ok () else .error err
      | .ok () =>
          match op with
          | .opNeg | .opPos =>
              if !matchOpt e.GetType .tInt then
                .error (e.token, "the type of operand should be an integer type " ++
                  "in this operation.\n" ++
                  "operand : " ++ renderOpt e.GetType ++ "\n")
              else .ok ()
          | .opNot =>
              if !matchOpt e.GetType .tBool then
                .error (e.token, "the type of operand should be a boolean type " ++
                  "in this operation.\n" ++
                  "operand : " ++ renderOpt e.GetType ++ "\n")
              else .ok ()
          | _ => .error (tok, "the operation is not valid.\n")
  | .specialOp _ op e _ => do
      e.TypeCheck
      if op = .opDeref then
        if !isPointerOpt e.GetType then
          .error (e.token, "the dereference of non-pointer type (" ++
            renderOpt e.GetType ++ ") is not allowed.\n")
        else .ok ()
      else .ok ()
  | .functionCall tok sym args =>
      if args.length ≠ sym.params.length then
        .error (tok, "the number of parameters mismatched.\n" ++
          "signature : " ++ toString sym.params.length ++ "\n" ++
          "subroutineCall : " ++ toString args.length ++ "\n")
      else tcArgs sym.params args

/-- The index loop of `CAstArrayDesignator::TypeCheck`: each index must
type-check and have integer type. -/
def tcIndices : List Expr → Except TCErr Unit
  | [] => .ok ()
  | e :: rest => do
      e.TypeCheck
      if !matchOpt e.GetType .tInt then
        .error (e.token, "the element in array should be accessed by integer index.\n" ++
          "but the expression's type is " ++ renderOpt e.GetType ++ "\n")
      else tcIndices rest

/-- The argument loop of `CAstFunctionCall::TypeCheck`: each argument must
type-check and match the corresponding signature type (the count was
already checked, so an uneven tail is unreachable). -/
def tcArgs : List CType → List Expr → Except TCErr Unit
  | p :: ps, e :: es => do
      e.TypeCheck
      if !matchOpt e.GetType p then
        .error (e.token, "the type of parameters does not match " ++
          "with the function/procedure's signature.\n" ++
          "signature : " ++ p.render ++ "\n" ++
          "subroutineCall : " ++ renderOpt e.GetType ++ "\n")
      else tcArgs ps es
  | _, _ => .ok ()

end

/-! ## The TAC model

Modelled from the spec (tac.cpp/tac.h and codeblock are not under src/):
TAC addresses are constants, symbol names, typed numbered temporaries,
references (a temporary holding a computed address, tagged with the symbol
it indirects) and labels; an instruction is an opcode with an optional
destination and up to two optional source operands (a NULL C++ operand is
`none`), and a label definition is itself an instruction in the stream.
`CCodeBlock` is modelled as the counters for fresh temporaries and labels
(plus the owning scope's two intrinsic symbols, the only symbol-table
lookups the lowering performs); instead of mutating a buffer, every
lowering function returns the list of instructions it appends, so the
final buffer is the concatenation of the returned segments in order. -/

/-- A TAC address (`CTacAddr` and its subclasses). -/
inductive TacAddr where
  | const (v : Int)
  | name (s : CSymbol)
  | procName (s : CSymProc)
  | temp (n : Nat) (ty : CType)
  | ref (n : Nat) (ty : CType) (sym : CSymbol)
  | label (l : Nat)
  deriving DecidableEq, Repr

/-- A TAC instruction (`CTacInstr`); `labelDef` is a `CTacLabel` appended
to the stream. -/
inductive TacInstr where
  | instr (op : EOperation) (dst : Option TacAddr)
      (src1 : Option TacAddr) (src2 : Option TacAddr)
  | labelDef (l : Nat)
  deriving DecidableEq, Repr

/-- The two fixed-name intrinsic symbols the lowering looks up in the
owning scope's symbol table ("dimension-extent" and "data-offset"). -/
structure ScopeSyms where
  dim : CSymProc
  dofs : CSymProc
  deriving DecidableEq, Repr

/-- The code-block state: the owner scope's intrinsic symbols and the
counters behind `CreateTemp`/`CreateLabel`. -/
structure CodeBlock where
  owner : ScopeSyms
  ntemp : Nat
  nlabel : Nat
  deriving DecidableEq, Repr

/-- `CCodeBlock::CreateTemp`: a fresh numbered temporary (its type is
recorded on each use of the returned address). -/
def CodeBlock.CreateTemp (cb : CodeBlock) : Nat × CodeBlock :=
  (cb.ntemp, { cb with ntemp := cb.ntemp + 1 })

/-- `CCodeBlock::CreateLabel`: a fresh label (the optional human-readable
hint does not participate in any claim and is dropped). -/
def CodeBlock.CreateLabel (cb : CodeBlock) : Nat × CodeBlock :=
  (cb.nlabel, { cb with nlabel := cb.nlabel + 1 })

/-- `new CTacInstr(opGoto, l)`. -/
def gotoInstr (l : Nat) : TacInstr :=
  .instr .opGoto (some (.label l)) none none

/-! Auxiliary size lemmas used by the termination argument of the
lowering functions. -/

theorem sizeOf_lt_of_get? {l : List Expr} {i : Nat} {e : Expr}
    (h : l.get? i = some e) : sizeOf e < sizeOf l := by
  induction l generalizing i with
  | nil => simp at h
  | cons a rest ih =>
      cases i with
      | zero =>
          rw [List.get?_cons_zero] at h
          obtain rfl := Option.some.inj h
          simp
          omega
      | succ j =>
          rw [List.get?_cons_succ] at h
          have := ih h
          simp
          omega

theorem ndim_le_sizeOf (t : Snupl.CType) : t.ndim ≤ sizeOf t := by
  induction t with
  | tArray nelem inner ih =>
      simp [CType.ndim]
      cases nelem <;> simp <;> omega
  | _ => simp [CType.ndim]

/-! The lowering of the two compiler-intrinsic runtime queries.
`CAstArrayDesignator::ToTac` constructs fresh AST nodes — the array
expression `idExpr` (a plain designator when the symbol is pointer-typed,
otherwise an address-of node around it) and a `CAstFunctionCall` on the
`DIM` resp. `DOFS` symbol — and lowers them with the ordinary
`CAstFunctionCall::ToTac`.  Those nodes have a fixed shape, so their
lowering is unfolded here into closed-form helpers (the general lowering
function below cannot recurse into freshly constructed nodes); the lemmas
`emitIdExprToTac_eq_ToTacV` and `emitDIMCall_eq` after the main definition
re-check the unfolding against the general lowering. -/

/-- The lowering of the `idExpr` node of `CAstArrayDesignator::ToTac`: a
`CAstDesignator` produces its name with no code; a
`CAstSpecialOp(opAddress, designator)` lowers the designator and emits one
address-of into a fresh temporary typed pointer-to-(symbol type). -/
def emitIdExprToTac (sym : CSymbol) (ptrCase : Bool) (cb : CodeBlock) :
    TacAddr × List TacInstr × CodeBlock :=
  if ptrCase then (.name sym, [], cb)
  else
    let (tn, cb1) := cb.CreateTemp
    let t : TacAddr := .temp tn (.tPtr sym.dataType)
    (t, [.instr .opAddress (some t) (some (.name sym)) none], cb1)

/-- `CAstFunctionCall::ToTac` unfolded at the node
`DIM(idExpr, CAstConstant(d))`: parameters in reverse index order — the
dimension-number constant as parameter 1, then the lowered `idExpr` as
parameter 0 — then the call into a fresh temporary of the intrinsic's
return type. -/
def emitDIMCall (dimSym : CSymProc) (sym : CSymbol) (ptrCase : Bool) (d : Int)
    (cb : CodeBlock) : TacAddr × List TacInstr × CodeBlock :=
  let c1 : List TacInstr := [.instr .opParam (some (.const 1)) (some (.const d)) none]
  let (av, ac, cb1) := emitIdExprToTac sym ptrCase cb
  let c0 := ac ++ [TacInstr.instr .opParam (some (.const 0)) (some av) none]
  let (tn, cb2) := cb1.CreateTemp
  let t : TacAddr := .temp tn dimSym.returnType
  (t, c1 ++ c0 ++ [.instr .opCall (some t) (some (.procName dimSym)) none], cb2)

/-- `CAstFunctionCall::ToTac` unfolded at the node `DOFS(idExpr)`: the
lowered `idExpr` as parameter 0, then the call into a fresh temporary of
the intrinsic's return type. -/
def emitDOFSCall (dofsSym : CSymProc) (sym : CSymbol) (ptrCase : Bool)
    (cb : CodeBlock) : TacAddr × List TacInstr × CodeBlock :=
  let (av, ac, cb1) := emitIdExprToTac sym ptrCase cb
  let c0 := ac ++ [TacInstr.instr .opParam (some (.const 0)) (some av) none]
  let (tn, cb2) := cb1.CreateTemp
  let t : TacAddr := .temp tn dofsSym.returnType
  (t, c0 ++ [.instr .opCall (some t) (some (.procName dofsSym)) none], cb2)

theorem length_lt_sizeOf (l : List Expr) : l.length < sizeOf l := by
  induction l with
  | nil => simp
  | cons a rest ih =>
      have ha : 0 < sizeOf a := by cases a <;> simp
      simp
      omega

theorem ndim_stripPtr_le (t : CType) : (stripPtr t).ndim ≤ sizeOf t := by
  cases t with
  | tPtr base =>
      have := ndim_le_sizeOf base
      simp [stripPtr]
      omega
  | tArray nelem inner =>
      have := ndim_le_sizeOf (CType.tArray nelem inner)
      simpa [stripPtr] using this
  | tInt => simp [stripPtr, CType.ndim]
  | tBool => simp [stripPtr, CType.ndim]
  | tChar => simp [stripPtr, CType.ndim]
  | tNull => simp [stripPtr, CType.ndim]

theorem sizeOf_dataType_lt (sym : CSymbol) : sizeOf sym.dataType < sizeOf sym := by
  cases sym
  simp

/-- The extra summand that orders the two lowering entry points of one
node for the termination measure: the value form of a binary/unary
operation recurses into the condition form of the same node, while the
condition form of every other node recurses into its own value form. -/
def exprFormV : Expr → Nat
  | .binaryOp _ _ _ _ => 1
  | .unaryOp _ _ _ => 1
  | _ => 0

theorem exprFormV_le (e : Expr) : exprFormV e ≤ 1 := by
  cases e <;> simp [exprFormV]

theorem sizeOf_eop (op : EOperation) : sizeOf op = 1 := by
  cases op <;> rfl

theorem sizeOf_append (l1 l2 : List Expr) :
    sizeOf (l1 ++ l2) + 1 = sizeOf l1 + sizeOf l2 := by
  induction l1 with
  | nil =>
      simp
      omega
  | cons a rest ih =>
      simp [List.cons_append]
      omega

theorem sizeOf_reverse (l : List Expr) : sizeOf l.reverse = sizeOf l := by
  induction l with
  | nil => rfl
  | cons a rest ih =>
      have h := sizeOf_append rest.reverse [a]
      simp [List.reverse_cons]
      simp at h
      omega

mutual

/-- Value-form lowering `ToTac(CCodeBlock*)` of each expression node,
translated case by case from ast.cpp; returns the value's TAC address, the
appended instructions, and the updated code-block state.
* `CAstConstant::ToTac`: a constant address, no code;
* `CAstDesignator::ToTac`: a name address, no code;
* `CAstArrayDesignator::ToTac`: the array-address computation (see
  `arrayIdxLoop` and the intrinsic-call helpers above);
* `CAstBinaryOp::ToTac`: for `+ - * /` lower both operands and emit one
  arithmetic instruction into a fresh integer temporary; for the boolean
  operators route through the condition form of the same node and
  materialize 1/0 through fresh true/false/end labels;
* `CAstUnaryOp::ToTac`: for `+`/`-` on a constant operand emit nothing and
  return the (negated, for `-`) constant directly; on a non-constant
  operand emit the unary opcode into a fresh integer temporary; `not`
  routes through the condition form like the boolean binary operators;
* `CAstSpecialOp::ToTac`: lower the operand, emit one address-of into a
  fresh temporary typed pointer-to-operand-type (the one method serves
  address-of, dereference and cast alike);
* `CAstFunctionCall::ToTac`: parameters in reverse index order, then the
  call into a fresh temporary of the callee's return type. -/
def ToTacV : Expr → CodeBlock → TacAddr × List TacInstr × CodeBlock
  | .constant _ _ v, cb => (.const v, [], cb)
  | .designator _ sym, cb => (.name sym, [], cb)
  | .arrayDesignator tok sym idxs, cb =>
      let dimSym := cb.owner.dim
      let dofsSym := cb.owner.dofs
      let ptrCase := sym.dataType.IsPointer
      let dataType := stripPtr sym.dataType
      -- the array's runtime descriptor: the symbol itself when it is
      -- already a pointer, otherwise its address taken into a fresh
      -- pointer-typed temporary
      let (id, c0, cb1) :=
        if ptrCase then ((TacAddr.name sym), ([] : List TacInstr), cb)
        else
          let (tn, cb') := cb.CreateTemp
          let t : TacAddr := .temp tn (.tPtr sym.dataType)
          (t, [TacInstr.instr .opAddress (some t) (some (.name sym)) none], cb')
      let dataSize := dataType.GetBaseType.GetSize
      let iterateCount := dataType.ndim
      let (idx1, cL, cb2) := arrayIdxLoop sym dimSym ptrCase idxs iterateCount 0 none cb1
      -- multiply data size
      let (tn1, cb3) := cb2.CreateTemp
      let t1 : TacAddr := .temp tn1 .tInt
      -- calculate array offset
      let (ofs, cOfs, cb4) := emitDOFSCall dofsSym sym ptrCase cb3
      let (tn2, cb5) := cb4.CreateTemp
      let t2 : TacAddr := .temp tn2 .tInt
      let (tn3, cb6) := cb5.CreateTemp
      let t3 : TacAddr := .temp tn3 .tInt
      (.ref tn3 .tInt sym,
       c0 ++ cL
          ++ [.instr .opMul (some t1) idx1 (some (.const dataSize))]
          ++ cOfs
          ++ [.instr .opAdd (some t2) (some t1) (some ofs)]
          ++ [.instr .opAdd (some t3) (some id) (some t2)],
       cb6)
  | .binaryOp tok op l r, cb =>
      match op with
      | .opAdd | .opSub | .opMul | .opDiv =>
          let (lv, lc, cb1) := ToTacV l cb
          let (rv, rc, cb2) := ToTacV r cb1
          let (tn, cb3) := cb2.CreateTemp
          let t : TacAddr := .temp tn .tInt
          (t, lc ++ rc ++ [.instr op (some t) (some lv) (some rv)], cb3)
      | _ =>
          -- otherwise, the expression is a boolean type (the C++ creates
          -- ltrue and lfalse in one declaration; modelled left-to-right)
          let (ltrue, cb1) := cb.CreateLabel
          let (lfalse, cb2) := cb1.CreateLabel
          let (lend, cb3) := cb2.CreateLabel
          let (_, cc, cb4) := ToTacC (Expr.binaryOp tok op l r) cb3 ltrue lfalse
          let (tn, cb5) := cb4.CreateTemp
          let t : TacAddr := .temp tn .tBool
          (t, cc ++
            [.labelDef ltrue,
             .instr .opAssign (some t) (some (.const 1)) none,
             gotoInstr lend,
             .labelDef lfalse,
             .instr .opAssign (some t) (some (.const 0)) none,
             .labelDef lend], cb5)
  | .unaryOp tok op e, cb =>
      match op with
      | .opPos | .opNeg =>
          match e with
          | .constant _ _ v =>
              -- the constant operand is negated in place and returned with
              -- no instruction emitted (for example, unary minus applied to
              -- 2147483648 returns the constant -2147483648)
              (.const (if op = .opNeg then -v else v), [], cb)
          | e' =>
              let (ov, oc, cb1) := ToTacV e' cb
              let (tn, cb2) := cb1.CreateTemp
              let t : TacAddr := .temp tn .tInt
              (t, oc ++ [.instr op (some t) (some ov) none], cb2)
      | _ =>
          -- opNot (the constructor asserts the operator set)
          let (ltrue, cb1) := cb.CreateLabel
          let (lfalse, cb2) := cb1.CreateLabel
          let (lend, cb3) := cb2.CreateLabel
          let (_, cc, cb4) := ToTacC (Expr.unaryOp tok op e) cb3 ltrue lfalse
          let (tn, cb5) := cb4.CreateTemp
          let t : TacAddr := .temp tn .tBool
          (t, cc ++
            [.labelDef ltrue,
             .instr .opAssign (some t) (some (.const 1)) none,
             gotoInstr lend,
             .labelDef lfalse,
             .instr .opAssign (some t) (some (.const 0)) none,
             .labelDef lend], cb5)
  | .specialOp _ _ e _, cb =>
      let (sv, sc, cb1) := ToTacV e cb
      let (tn, cb2) := cb1.CreateTemp
      let t : TacAddr := .temp tn (GetPointerOpt e.GetType)
      (t, sc ++ [.instr .opAddress (some t) (some sv) none], cb2)
  | .functionCall _ sym args, cb =>
      let (pc, cb1) := tacParamsLoop args.reverse cb
      let (tn, cb2) := cb1.CreateTemp
      let t : TacAddr := .temp tn sym.returnType
      (t, pc ++ [.instr .opCall (some t) (some (.procName sym)) none], cb2)
termination_by e cb => 2 * sizeOf e + exprFormV e
decreasing_by
  all_goals try have hN := ndim_stripPtr_le sym.dataType
  all_goals try have hD := sizeOf_dataType_lt sym
  all_goals try have hL := length_lt_sizeOf args
  all_goals try have hR := sizeOf_reverse args
  all_goals try have hFl := exprFormV_le l
  all_goals try have hFr := exprFormV_le r
  all_goals try have hFe := exprFormV_le e
  all_goals try (rename_i x; have hFx := exprFormV_le x)
  all_goals simp [exprFormV, sizeOf_eop] at *
  all_goals omega

/-- The `for (int i = n - 1; i >= 0; i--)` parameter loop shared by
`CAstStatCall::ToTac` and `CAstFunctionCall::ToTac`, driven here by the
reversed argument list (the head is argument `n - 1`, whose index is the
length of the remaining tail): lower argument `i` to a value, emit
`param i, arg`, and continue downwards. -/
def tacParamsLoop : List Expr → CodeBlock → List TacInstr × CodeBlock
  | [], cb => ([], cb)
  | a :: rest, cb =>
      let i := rest.length
      let (av, ac, cb1) := ToTacV a cb
      let (restC, cb2) := tacParamsLoop rest cb1
      (ac ++ [TacInstr.instr .opParam (some (.const (Int.ofNat i))) (some av) none] ++ restC,
       cb2)
termination_by l cb => 2 * sizeOf l
decreasing_by
  all_goals try have hF := exprFormV_le a
  all_goals simp [exprFormV, sizeOf_eop] at *
  all_goals omega

/-- The evaluation of the index expression for iteration `i` of the
dimension loop of `CAstArrayDesignator::ToTac`: the supplied index
expression lowered to a value, or the constant 0 with no code when the
dimension number exceeds the number of supplied indices (on the first
iteration `GetIndex` asserts an index is present, so the constant-0 arm is
unreachable there). -/
def addIndexStep (idxs : List Expr) (i : Nat) (cb : CodeBlock) :
    TacAddr × List TacInstr × CodeBlock :=
  match hg : idxs.get? i with
  | some e => ToTacV e cb
  | none => ((TacAddr.const 0), ([] : List TacInstr), cb)
termination_by 2 * sizeOf idxs
decreasing_by
  have hS := sizeOf_lt_of_get? hg
  have hF := exprFormV_le e
  simp [exprFormV, sizeOf_eop] at *
  omega

/-- The dimension loop of `CAstArrayDesignator::ToTac`, iterating `i` from
0 to `iterateCount - 1` (the array's declared dimensionality): on the
first iteration the index expression is lowered as the initial accumulated
index; on every later iteration the accumulated index is added to the
current dimension's index expression (the constant 0 when none was
supplied); after every iteration but the last, a `DIM` intrinsic call for
dimension `i + 2` is lowered and the accumulated index is multiplied by
its result. -/
def arrayIdxLoop (sym : CSymbol) (dimSym : CSymProc) (ptrCase : Bool)
    (idxs : List Expr) (iterateCount : Nat) (i : Nat) (idx : Option TacAddr)
    (cb : CodeBlock) : Option TacAddr × List TacInstr × CodeBlock :=
  if hi : i < iterateCount then
    let (idx2, c1, cb1) :=
      match idx with
      | none =>
          let (v, c, cb') := addIndexStep idxs i cb
          (some v, c, cb')
      | some idxv =>
          let (prev, cp, cb') := addIndexStep idxs i cb
          let (tn, cb'') := cb'.CreateTemp
          let t : TacAddr := .temp tn .tInt
          (some t, cp ++ [TacInstr.instr .opAdd (some t) (some idxv) (some prev)], cb'')
    if i = iterateCount - 1 then (idx2, c1, cb1)
    else
      -- call dimension size and multiply it
      let (dimv, cDim, cb2) := emitDIMCall dimSym sym ptrCase (Int.ofNat i + 2) cb1
      let (tn, cb3) := cb2.CreateTemp
      let t : TacAddr := .temp tn .tInt
      let (res, crest, cb4) :=
        arrayIdxLoop sym dimSym ptrCase idxs iterateCount (i + 1) (some t) cb3
      (res, c1 ++ cDim ++ [TacInstr.instr .opMul (some t) idx2 (some dimv)] ++ crest, cb4)
  else (idx, [], cb)
termination_by 2 * sizeOf idxs + (iterateCount - i)
decreasing_by
  all_goals simp [exprFormV, sizeOf_eop] at *
  all_goals omega

/-- Condition-form lowering `ToTac(CCodeBlock*, CTacLabel*, CTacLabel*)`
of each expression node, translated case by case from ast.cpp.
* `CAstBinaryOp::ToTac`: a fresh label is always created; a relational
  operator emits one conditional jump to on-true and a goto to on-false;
  `and` lowers the left operand with targets (fresh, on-false), emits the
  fresh label, and lowers the right operand with (on-true, on-false); the
  remaining (`or`) case is symmetric;
* `CAstUnaryOp::ToTac` (asserts `not`): lower the operand with the two
  targets swapped;
* `CAstConstant::ToTac`: one unconditional goto — to on-true when the
  value is nonzero, to on-false otherwise;
* `CAstDesignator::ToTac`, `CAstArrayDesignator::ToTac`,
  `CAstFunctionCall::ToTac`: lower the node in value form, compare the
  value against the constant 1 with a conditional jump to on-true, then
  goto on-false;
* `CAstSpecialOp` inherits `CAstExpression::ToTac`: no code, NULL. -/
def ToTacC : Expr → CodeBlock → Nat → Nat → Option TacAddr × List TacInstr × CodeBlock
  | .binaryOp tok op l r, cb, ltrue, lfalse =>
      let (nextCond, cb0) := cb.CreateLabel
      if IsRelOp op then
        -- the C++ lowers both operands inside one constructor call, whose
        -- argument evaluation order is unspecified; modelled left-then-right
        let (lv, lc, cb1) := ToTacV l cb0
        let (rv, rc, cb2) := ToTacV r cb1
        (none,
         lc ++ rc ++ [.instr op (some (.label ltrue)) (some lv) (some rv),
                      gotoInstr lfalse], cb2)
      else if op = .opAnd then
        -- if the current condition is true, look at the next condition;
        -- otherwise the total condition is false regardless of the rest
        let (_, lc, cb1) := ToTacC l cb0 nextCond lfalse
        let (_, rc, cb2) := ToTacC r cb1 ltrue lfalse
        (none, lc ++ [.labelDef nextCond] ++ rc, cb2)
      else
        -- if the current condition is true, the total condition is true
        -- regardless of the rest; otherwise look at the next condition
        let (_, lc, cb1) := ToTacC l cb0 ltrue nextCond
        let (_, rc, cb2) := ToTacC r cb1 ltrue lfalse
        (none, lc ++ [.labelDef nextCond] ++ rc, cb2)
  | .unaryOp tok op e, cb, ltrue, lfalse =>
      match op with
      | .opNot => ToTacC e cb lfalse ltrue
      | _ => (none, [], cb)
  | .constant _ _ v, cb, ltrue, lfalse =>
      (some (.const v),
       [if v ≠ 0 then gotoInstr ltrue else gotoInstr lfalse], cb)
  | .designator tok sym, cb, ltrue, lfalse =>
      let (v, vc, cb1) := ToTacV (Expr.designator tok sym) cb
      (none,
       vc ++ [.instr .opEqual (some (.label ltrue)) (some v) (some (.const 1)),
              gotoInstr lfalse], cb1)
  | .arrayDesignator tok sym idxs, cb, ltrue, lfalse =>
      let (v, vc, cb1) := ToTacV (Expr.arrayDesignator tok sym idxs) cb
      (some v,
       vc ++ [.instr .opEqual (some (.label ltrue)) (some v) (some (.const 1)),
              gotoInstr lfalse], cb1)
  | .functionCall tok sym args, cb, ltrue, lfalse =>
      let (v, vc, cb1) := ToTacV (Expr.functionCall tok sym args) cb
      (none,
       vc ++ [.instr .opEqual (some (.label ltrue)) (some v) (some (.const 1)),
              gotoInstr lfalse], cb1)
  | .specialOp _ _ _ _, cb, _, _ => (none, [], cb)
termination_by e cb lt lf => 2 * sizeOf e + 1 - exprFormV e
decreasing_by
  all_goals try have hFl := exprFormV_le l
  all_goals try have hFr := exprFormV_le r
  all_goals try have hFe := exprFormV_le e
  all_goals try (rename_i x; have hFx := exprFormV_le x)
  all_goals simp [exprFormV, sizeOf_eop] at *
  all_goals omega

end

/-- `CAstStatAssign::TypeCheck`, translated from ast.cpp: both sides must
type-check; the LHS type must be non-NULL scalar (reported at the LHS
token), the RHS type non-NULL scalar (reported at the RHS token), and the
two must structurally Match (reported at the LHS token, with both types in
the message).  The C++ field is a `CAstDesignator*`, so `lhs` ranges over
designator nodes there; nothing in the method depends on that. -/
def StatAssign.TypeCheck (lhs rhs : Expr) : Except TCErr Unit := do
  lhs.TypeCheck
  rhs.TypeCheck
  if !isScalarOpt lhs.GetType then
    .error (lhs.token, "invalid variable type.\n" ++
      "LHS : " ++ renderOpt lhs.GetType ++ "\n")
  else if !isScalarOpt rhs.GetType then
    .error (rhs.token, "invalid value type.\n" ++
      "RHS : " ++ renderOpt rhs.GetType ++ "\n")
  else if !matchOpt lhs.GetType (rhs.GetType.getD .tNull) then
    .error (lhs.token, "assign type mismatch.\n" ++
      "LHS : " ++ renderOpt lhs.GetType ++ "\n" ++
      "RHS : " ++ renderOpt rhs.GetType ++ "\n")
  else .ok ()

/-- `CAstStatCall::ToTac`, translated from ast.cpp: the reverse-order
parameter loop, a result temporary only when the callee's data (return)
type is not the null type, the call instruction, then `goto next`; the
method returns NULL, so the statement's value is just the emitted code. -/
def StatCall.ToTac (callee : CSymProc) (args : List Expr) (next : Nat)
    (cb : CodeBlock) : List TacInstr × CodeBlock :=
  let (pc, cb1) := tacParamsLoop args.reverse cb
  let (tmp, cb2) :=
    if callee.returnType ≠ .tNull then
      let (tn, cb') := cb1.CreateTemp
      (some (TacAddr.temp tn callee.returnType), cb')
    else (none, cb1)
  (pc ++ [TacInstr.instr .opCall tmp (some (.procName callee)) none,
          gotoInstr next], cb2)

/-! ## A small operational semantics for emitted TAC

Verification harness (not translated from the repository): enough of an
interpreter for straight-line TAC with labels, jumps, conditional
relational jumps and oracle-valued calls to state reachability facts about
emitted code — in particular the short-circuit property.  Execution exits
the instruction list when it jumps to a label that is not defined in it
(the lowering's on-true/on-false continuation labels). -/

/-- The position of the definition of label `l` in the stream, if any. -/
def findLabel (prog : List TacInstr) (l : Nat) : Option Nat :=
  prog.findIdx? (fun i => i = .labelDef l)

/-- Evaluation of a TAC address: constants are themselves, temporaries are
looked up in the temporary store (0 if unset); symbol values are outside
this fragment and read as 0. -/
def evalAddr (temps : List (Nat × Int)) : TacAddr → Int
  | .const v => v
  | .temp n _ => ((temps.find? (fun p => p.1 = n)).map Prod.snd).getD 0
  | _ => 0

/-- The meaning of a relational opcode on two integer values. -/
def relHolds (op : EOperation) (a b : Int) : Bool :=
  match op with
  | .opEqual => a = b
  | .opNotEqual => a ≠ b
  | .opLessThan => a < b
  | .opLessEqual => a ≤ b
  | .opBiggerThan => b < a
  | .opBiggerEqual => b ≤ a
  | _ => false

/-- Store a value into a destination operand (only temporaries are
writable in this fragment). -/
def storeDst (temps : List (Nat × Int)) (dst : Option TacAddr) (v : Int) :
    List (Nat × Int) :=
  match dst with
  | some (.temp n _) => (n, v) :: temps
  | _ => temps

/-- The result of running a TAC fragment: exit through an undefined label
(the continuation labels of jumping code) together with the names of the
procedures called on the way, or a stuck/fuel-exhausted state. -/
inductive RunResult where
  | exited (l : Nat) (calls : List String)
  | stuck
  deriving DecidableEq, Repr

/-- A fuelled small-step interpreter for the TAC fragment emitted by the
lowering: labels fall through, `goto` and holding relational jumps
transfer to the label's definition (or exit the fragment when it has
none), `call` consults the oracle for the callee's return value and
records the call, `param` is a no-op here, `assign` and the binary
integer operations update the destination temporary. -/
def run (oracle : String → Int) (prog : List TacInstr) :
    Nat → Nat → List (Nat × Int) → List String → RunResult
  | 0, _, _, _ => .stuck
  | fuel + 1, pc, temps, calls =>
    match prog.get? pc with
    | none => .stuck
    | some (.labelDef _) => run oracle prog fuel (pc + 1) temps calls
    | some (.instr op dst s1 s2) =>
      match op, dst, s1, s2 with
      | .opGoto, some (.label l), _, _ =>
          match findLabel prog l with
          | some j => run oracle prog fuel j temps calls
          | none => .exited l calls
      | .opCall, _, some (.procName f), _ =>
          run oracle prog fuel (pc + 1)
            (storeDst temps dst (oracle f.name)) (calls ++ [f.name])
      | .opParam, _, _, _ => run oracle prog fuel (pc + 1) temps calls
      | .opAssign, _, some a, _ =>
          run oracle prog fuel (pc + 1) (storeDst temps dst (evalAddr temps a)) calls
      | .opAdd, _, some a, some b =>
          run oracle prog fuel (pc + 1)
            (storeDst temps dst (evalAddr temps a + evalAddr temps b)) calls
      | .opSub, _, some a, some b =>
          run oracle prog fuel (pc + 1)
            (storeDst temps dst (evalAddr temps a - evalAddr temps b)) calls
      | .opMul, _, some a, some b =>
          run oracle prog fuel (pc + 1)
            (storeDst temps dst (evalAddr temps a * evalAddr temps b)) calls
      | op, some (.label l), some a, some b =>
          if IsRelOp op then
            if relHolds op (evalAddr temps a) (evalAddr temps b) then
              match findLabel prog l with
              | some j => run oracle prog fuel j temps calls
              | none => .exited l calls
            else run oracle prog fuel (pc + 1) temps calls
          else .stuck
      | _, _, _, _ => .stuck

/-! ## Claims -/

/-- **C4.** An integer literal constant whose value equals 2^31
(2147483648) fails type-checking when it stands alone, but when it is the
immediate operand of a unary minus the unary expression type-checks
successfully (the operand's failure is suppressed), accommodating the
minimum representable 32-bit integer. -/
theorem claim_C4_min_int_literal (tokc toku : Nat) :
    (Expr.constant tokc (some .tInt) (2 ^ 31)).TypeCheck
        = .error (tokc, "invalid number. (2147483648)\n")
    ∧ (Expr.unaryOp toku .opNeg (Expr.constant tokc (some .tInt) (2 ^ 31))).TypeCheck
        = .ok () := by
  constructor <;> rfl

/-- **C5.** For every unary minus applied directly to an integer-literal
constant operand, value-form lowering emits no instruction at all: the
constant's value is negated and returned directly as a Constant address
(stated for an arbitrary constant operand, which subsumes the
integer-literal case; at `v = 2147483648` this returns the constant
`-2147483648` with zero emitted instructions). -/
theorem claim_C5_neg_literal_folds (toku tokc : Nat) (ty : CTypeP) (v : Int)
    (cb : CodeBlock) :
    ToTacV (Expr.unaryOp toku .opNeg (Expr.constant tokc ty v)) cb
      = (.const (-v), [], cb) := by
  simp [ToTacV]

/-- **C9.** For every special-op expression (address-of, dereference, or
cast), value-form lowering lowers the operand to a value and emits exactly
one address-of instruction into a fresh temporary of type
pointer-to-operand-type — dereference and cast are lowered identically to
address-of, with no load or conversion instruction emitted. -/
theorem claim_C9_specialop_lowering (tok : Nat) (e : Expr) (cty : CTypeP)
    (cb : CodeBlock) :
    (ToTacV (Expr.specialOp tok .opAddress e cty) cb
        = (let (sv, sc, cb1) := ToTacV e cb
           let t : TacAddr := .temp cb1.ntemp (.tPtr (e.GetType.getD .tNull))
           (t, sc ++ [.instr .opAddress (some t) (some sv) none],
            { cb1 with ntemp := cb1.ntemp + 1 })))
    ∧ ToTacV (Expr.specialOp tok .opDeref e cty) cb
        = ToTacV (Expr.specialOp tok .opAddress e cty) cb
    ∧ ToTacV (Expr.specialOp tok .opCast e cty) cb
        = ToTacV (Expr.specialOp tok .opAddress e cty) cb := by
  refine ⟨?_, ?_, ?_⟩ <;>
    simp [ToTacV, CodeBlock.CreateTemp, GetPointerOpt]

/-- **C10.** For every constant lowered in condition form, exactly one
unconditional goto is emitted: to on-true exactly when the constant's
value is nonzero (not: equals 1), otherwise to on-false, with no
comparison instruction — unlike function calls and designators used as
conditions, which lower the node in value form and compare the value
against the constant 1 before branching. -/
theorem claim_C10_condition_lowerings (tok tokd tokf : Nat) (ty : CTypeP)
    (v : Int) (sym : CSymbol) (fsym : CSymProc) (args : List Expr)
    (cb : CodeBlock) (lt lf : Nat) :
    ToTacC (Expr.constant tok ty v) cb lt lf
        = (some (.const v), [gotoInstr (if v = 0 then lf else lt)], cb)
    ∧ (ToTacC (Expr.designator tokd sym) cb lt lf
        = (let (dv, dc, cb1) := ToTacV (Expr.designator tokd sym) cb
           (none, dc ++ [.instr .opEqual (some (.label lt)) (some dv) (some (.const 1)),
                         gotoInstr lf], cb1)))
    ∧ (ToTacC (Expr.functionCall tokf fsym args) cb lt lf
        = (let (fv, fc, cb1) := ToTacV (Expr.functionCall tokf fsym args) cb
           (none, fc ++ [.instr .opEqual (some (.label lt)) (some fv) (some (.const 1)),
                         gotoInstr lf], cb1))) := by
  refine ⟨?_, ?_, ?_⟩
  · by_cases h : v = 0 <;> simp [ToTacC, h]
  · simp [ToTacC]
  · simp [ToTacC]


/-- **C7.** For every assignment whose two sides individually type-check
to non-null scalar types that do not structurally Match, type-checking
fails and the reported location is the left-hand side's token, with a
message carrying both the LHS and RHS types; an assignment whose LHS or
RHS has a null or non-scalar type (including a NULL type pointer) also
fails. -/
theorem claim_C7_assign_type_mismatch (lhs rhs : Expr)
    (hl : lhs.TypeCheck = .ok ()) (hr : rhs.TypeCheck = .ok ()) :
    (∀ lt rt, lhs.GetType = some lt → rhs.GetType = some rt →
      lt.IsScalar = true → rt.IsScalar = true → lt.Match rt = false →
      StatAssign.TypeCheck lhs rhs
        = .error (lhs.token, "assign type mismatch.\n" ++
            "LHS : " ++ lt.render ++ "\n" ++
            "RHS : " ++ rt.render ++ "\n"))
    ∧ (isScalarOpt lhs.GetType = false ∨ isScalarOpt rhs.GetType = false →
        ∃ err, StatAssign.TypeCheck lhs rhs = .error err) := by
  constructor
  · intro lt rt h1 h2 hs1 hs2 hm
    simp [StatAssign.TypeCheck, hl, hr, h1, h2, isScalarOpt, hs1, hs2,
      matchOpt, hm, renderOpt, Except.bind]
    try rfl
  · intro h
    by_cases hsl : isScalarOpt lhs.GetType
    · have hsr : isScalarOpt rhs.GetType = false := by
        rcases h with h | h
        · exact absurd hsl (by simp [h])
        · exact h
      refine ⟨(rhs.token, "invalid value type.\n" ++
        "RHS : " ++ renderOpt rhs.GetType ++ "\n"), ?_⟩
      simp [StatAssign.TypeCheck, hl, hr, hsl, hsr, Except.bind]
      try rfl
    · refine ⟨(lhs.token, "invalid variable type.\n" ++
        "LHS : " ++ renderOpt lhs.GetType ++ "\n"), ?_⟩
      simp only [Bool.not_eq_true] at hsl
      simp [StatAssign.TypeCheck, hl, hr, hsl, Except.bind]
      try rfl

/-- Witness for C7 at a concrete input: `x := false` with `x : integer`
fails with the mismatch message at the LHS token 0. -/
theorem claim_C7_witness :
    StatAssign.TypeCheck (Expr.designator 0 ⟨"x", .tInt⟩)
        (Expr.constant 1 (some .tBool) 0)
      = .error (0, "assign type mismatch.\nLHS : integer\nRHS : boolean\n") :=
  (claim_C7_assign_type_mismatch (Expr.designator 0 ⟨"x", .tInt⟩)
      (Expr.constant 1 (some .tBool) 0) rfl rfl).1
    .tInt .tBool rfl rfl rfl rfl rfl

/-- **C8.** For every binary operation on two operands whose non-null,
non-pointer, mutually matching scalar types are boolean, the four
relational ordering operators fail type-checking (reported at the left
operand's token, naming the boolean operand types), while the equality
operators `=` and `#` accept any such matching scalar pair. -/
theorem claim_C8_relational_reject_bool (tok : Nat) (l r : Expr)
    (lt rt : CType)
    (hl : l.TypeCheck = .ok ()) (hr : r.TypeCheck = .ok ())
    (h1 : l.GetType = some lt) (h2 : r.GetType = some rt)
    (hs1 : lt.IsScalar = true) (hs2 : rt.IsScalar = true)
    (hp1 : lt.IsPointer = false) (hp2 : rt.IsPointer = false)
    (hm : lt.Match rt = true) :
    ((Expr.binaryOp tok .opEqual l r).TypeCheck = .ok ()
      ∧ (Expr.binaryOp tok .opNotEqual l r).TypeCheck = .ok ())
    ∧ (lt = .tBool →
        ∀ op ∈ [EOperation.opLessThan, .opLessEqual, .opBiggerThan, .opBiggerEqual],
          (Expr.binaryOp tok op l r).TypeCheck
            = .error (l.token, "the type of operands cannot be boolean type " ++
                "in this operation.\n" ++
                "left operand : " ++ lt.render ++ "\n" ++
                "right operand : " ++ rt.render ++ "\n")) := by
  have heq : lt = rt := by simpa [CType.Match] using hm
  subst heq
  constructor
  · constructor <;>
      (simp [Expr.TypeCheck, hl, hr, h1, h2, isScalarOpt, hs1,
        isPointerOpt, hp1, matchOpt, CType.Match, Except.bind]
       try rfl)
  · intro hb op hop
    subst hb
    fin_cases hop <;>
      (simp [Expr.TypeCheck, hl, hr, h1, h2, isScalarOpt, hs1,
        isPointerOpt, hp1, matchOpt, CType.Match, renderOpt, Except.bind]
       try rfl)

/-- Witness for C8 at a concrete input: `true < false` fails with the
boolean-ordering message at the left operand's token, while `true = false`
type-checks. -/
theorem claim_C8_witness :
    (Expr.binaryOp 2 .opLessThan (Expr.constant 0 (some .tBool) 1)
        (Expr.constant 1 (some .tBool) 0)).TypeCheck
      = .error (0, "the type of operands cannot be boolean type in this operation.\nleft operand : boolean\nright operand : boolean\n")
    ∧ (Expr.binaryOp 2 .opEqual (Expr.constant 0 (some .tBool) 1)
        (Expr.constant 1 (some .tBool) 0)).TypeCheck = .ok () := by
  have h := claim_C8_relational_reject_bool 2
    (Expr.constant 0 (some .tBool) 1) (Expr.constant 1 (some .tBool) 0)
    .tBool .tBool rfl rfl rfl rfl rfl rfl rfl rfl rfl
  exact ⟨h.2 rfl .opLessThan (by simp), h.1.1⟩


/-- The index loop of `CAstArrayDesignator::TypeCheck` succeeds whenever
every index expression type-checks and has integer type. -/
theorem tcIndices_ok (idxs : List Expr)
    (h : ∀ e ∈ idxs, e.TypeCheck = .ok () ∧ matchOpt e.GetType .tInt = true) :
    tcIndices idxs = .ok () := by
  induction idxs with
  | nil => rfl
  | cons a rest ih =>
      obtain ⟨h1, h2⟩ := h a (by simp)
      have hrest := ih (fun e he => h e (by simp [he]))
      simp [tcIndices, h1, h2, hrest, Except.bind]
      rfl

/-- Stripping at most `ndim` array levels always stays inside the nested
array descriptor and leaves the remaining dimensions and the ultimate
element type. -/
theorem stripInner_of_le (k : Nat) (t : CType) (h : k ≤ t.ndim) :
    ∃ u, Expr.stripInner k t = some u ∧ u.ndim = t.ndim - k
      ∧ u.GetBaseType = t.GetBaseType := by
  induction k generalizing t with
  | zero => exact ⟨t, rfl, by simp, rfl⟩
  | succ j ih =>
      cases t with
      | tArray nelem inner =>
          have h' : j ≤ inner.ndim := by
            simp [CType.ndim] at h
            omega
          obtain ⟨u, hu, hn, hb⟩ := ih inner h'
          refine ⟨u, by simpa [Expr.stripInner] using hu, ?_,
            by simpa [CType.GetBaseType] using hb⟩
          simp [CType.ndim]
          omega
      | tInt => simp [CType.ndim] at h
      | tBool => simp [CType.ndim] at h
      | tChar => simp [CType.ndim] at h
      | tNull => simp [CType.ndim] at h
      | tPtr base => simp [CType.ndim] at h

/-- **C3 (amended).** The computed type of an array designator is the
null type when the number of supplied indices exceeds the array's
declared dimensionality, and partial indexing yields the array type of
the remaining dimensions (same ultimate element type); but the
designator's own TypeCheck does not consult this type: it accepts
whenever every index expression type-checks with integer type, and the
null-typed designator is only rejected by the enclosing construct that
requires a non-null type. -/
theorem claim_C3_array_designator_typing (tok : Nat) (sym : CSymbol)
    (idxs : List Expr)
    (hidx : ∀ e ∈ idxs, e.TypeCheck = .ok () ∧ matchOpt e.GetType .tInt = true) :
    (Expr.arrayDesignator tok sym idxs).TypeCheck = .ok ()
    ∧ ((stripPtr sym.dataType).IsArray = true →
        (idxs.length > (stripPtr sym.dataType).ndim →
          (Expr.arrayDesignator tok sym idxs).GetType = none)
        ∧ (idxs.length ≤ (stripPtr sym.dataType).ndim →
            ∃ t, (Expr.arrayDesignator tok sym idxs).GetType = some t
              ∧ t.ndim = (stripPtr sym.dataType).ndim - idxs.length
              ∧ t.GetBaseType = (stripPtr sym.dataType).GetBaseType)) := by
  refine ⟨tcIndices_ok idxs hidx, fun hA => ⟨fun hgt => ?_, fun hle => ?_⟩⟩
  · simp [Expr.GetType, hA, hgt]
  · obtain ⟨u, hu, hn, hb⟩ := stripInner_of_le idxs.length (stripPtr sym.dataType) hle
    have hnot : ¬ idxs.length > (stripPtr sym.dataType).ndim := by omega
    refine ⟨u, ?_, hn, hb⟩
    simp [Expr.GetType, hA, hnot, hu]

/-- Counterexample to C3 as stated: indexing the 2-dimensional array
`a : 2 x 3 x integer` with three integer indices gives a designator whose
computed type is NULL, yet whose own TypeCheck *accepts* — the claim says
such a designator "is rejected by type-checking". -/
theorem claim_C3_counterexample :
    (Expr.arrayDesignator 5 ⟨"a", .tArray (some 2) (.tArray (some 3) .tInt)⟩
        [.constant 6 (some .tInt) 0, .constant 7 (some .tInt) 0,
         .constant 8 (some .tInt) 0]).TypeCheck = .ok ()
    ∧ (Expr.arrayDesignator 5 ⟨"a", .tArray (some 2) (.tArray (some 3) .tInt)⟩
        [.constant 6 (some .tInt) 0, .constant 7 (some .tInt) 0,
         .constant 8 (some .tInt) 0]).GetType = none := by
  constructor <;> rfl

/-- Witness for the amended C3 at a concrete input: `a[0]` on
`a : 2 x 3 x integer` type-checks and has the 1-dimensional remaining
array type with integer base. -/
theorem claim_C3_witness :
    (Expr.arrayDesignator 0 ⟨"a", .tArray (some 2) (.tArray (some 3) .tInt)⟩
        [.constant 1 (some .tInt) 0]).TypeCheck = .ok ()
    ∧ ∃ t, (Expr.arrayDesignator 0 ⟨"a", .tArray (some 2) (.tArray (some 3) .tInt)⟩
        [.constant 1 (some .tInt) 0]).GetType = some t
        ∧ t.ndim = 1 ∧ t.GetBaseType = .tInt := by
  have h := claim_C3_array_designator_typing 0
    ⟨"a", .tArray (some 2) (.tArray (some 3) .tInt)⟩
    [.constant 1 (some .tInt) 0]
    (by intro e he; simp at he; subst he; exact ⟨rfl, rfl⟩)
  refine ⟨h.1, ?_⟩
  obtain ⟨t, ht, hn, hb⟩ := (h.2 rfl).2 (by decide)
  exact ⟨t, ht, by simpa [stripPtr, CType.ndim] using hn,
    by simpa [stripPtr, CType.GetBaseType] using hb⟩


/-- The parameter emission exactly as claim C6 states it: for each index
in the given index list, the code lowering that argument to a value
followed by exactly one `param i, arg_i` instruction. -/
def specParamsFor (args : List Expr) : List Nat → CodeBlock → List TacInstr × CodeBlock
  | [], cb => ([], cb)
  | i :: rest, cb =>
      let (av, ac, cb1) :=
        match args.get? i with
        | some a => ToTacV a cb
        | none => ((TacAddr.const 0), ([] : List TacInstr), cb)
      let (restC, cb2) := specParamsFor args rest cb1
      (ac ++ [TacInstr.instr .opParam (some (.const (Int.ofNat i))) (some av) none] ++ restC,
       cb2)

/-- The call-statement emission as claim C6 states it: one param per
argument in reverse index order (argument n-1 first, argument 0 last),
a result temporary only when the callee's return type is non-null, the
call instruction, then `goto next`. -/
def specCallStatementCode (callee : CSymProc) (args : List Expr) (next : Nat)
    (cb : CodeBlock) : List TacInstr × CodeBlock :=
  let (pc, cb1) := specParamsFor args ((List.range args.length).reverse) cb
  let (tmp, cb2) :=
    if callee.returnType ≠ .tNull then
      let (tn, cb') := cb1.CreateTemp
      (some (TacAddr.temp tn callee.returnType), cb')
    else (none, cb1)
  (pc ++ [TacInstr.instr .opCall tmp (some (.procName callee)) none,
          gotoInstr next], cb2)

/-- Indices below the length of the prefix never see an appended last
element. -/
theorem specParamsFor_append (args : List Expr) (a : Expr) (is : List Nat)
    (h : ∀ i ∈ is, i < args.length) (cb : CodeBlock) :
    specParamsFor (args ++ [a]) is cb = specParamsFor args is cb := by
  induction is generalizing cb with
  | nil => rfl
  | cons i rest ih =>
      have hi : i < args.length := h i (by simp)
      have hg : (args ++ [a]).get? i = args.get? i := List.get?_append hi
      simp only [specParamsFor, hg]
      rw [ih (fun j hj => h j (by simp [hj]))]

/-- The reversed-list parameter loop of the lowering emits exactly the
claim's reverse-index-order parameter sequence. -/
theorem tacParamsLoop_eq_spec (args : List Expr) (cb : CodeBlock) :
    tacParamsLoop args.reverse cb
      = specParamsFor args ((List.range args.length).reverse) cb := by
  induction args using List.reverseRecOn generalizing cb with
  | nil => simp [tacParamsLoop, specParamsFor]
  | append_singleton l a ih =>
      have hg : (l ++ [a]).get? l.length = some a := List.get?_concat_length l a
      have hlt : ∀ i ∈ (List.range l.length).reverse, i < l.length := by
        intro i hi
        simpa using List.mem_range.mp (List.mem_reverse.mp hi)
      simp only [List.reverse_append, List.reverse_singleton, List.singleton_append,
        List.length_append, List.length_singleton, List.range_succ,
        tacParamsLoop, specParamsFor, hg, List.length_reverse]
      rw [specParamsFor_append l a _ hlt]
      rw [ih]

/-- **C6.** For every call lowered as a statement with n arguments,
exactly one `param i, arg_i` instruction is emitted per argument in
reverse index order (argument n-1 first, argument 0 last), each after
lowering that argument to a value; a result temporary is allocated only
when the callee's return type is non-null, the `call` instruction is
emitted, then `goto next`; the trailing code after the call is only the
goto, so the result temporary of a statement-position call is not used
afterwards. -/
theorem claim_C6_call_statement (callee : CSymProc) (args : List Expr)
    (next : Nat) (cb : CodeBlock) :
    StatCall.ToTac callee args next cb = specCallStatementCode callee args next cb
    ∧ ∃ tmp, (StatCall.ToTac callee args next cb).1
        = (tacParamsLoop args.reverse cb).1
          ++ [TacInstr.instr .opCall tmp (some (.procName callee)) none,
              gotoInstr next]
      ∧ ((tmp = none) ↔ callee.returnType = .tNull) := by
  constructor
  · simp [StatCall.ToTac, specCallStatementCode, tacParamsLoop_eq_spec]
  · by_cases h : callee.returnType = .tNull
    · exact ⟨none, by simp [StatCall.ToTac, h], by simp [h]⟩
    · refine ⟨some (.temp (tacParamsLoop args.reverse cb).2.ntemp callee.returnType),
        by simp [StatCall.ToTac, h, CodeBlock.CreateTemp], by simp [h]⟩


/-- **C2.** For every `and` expression lowered in condition form with
targets (on-true, on-false), the left operand is lowered with targets
(freshLabel, on-false), then freshLabel is emitted, then the right operand
is lowered with targets (on-true, on-false); for every `or` expression,
symmetrically, the left operand is lowered with targets (on-true,
freshLabel), then freshLabel is emitted, then the right operand with
(on-true, on-false).  Consequently, on the control path where the left
operand already decides the result no instruction generated for the right
operand is reachable: executing the code emitted for `a() or b()` as a
condition with targets (100, 101), under an oracle that makes `a` return
true (1), exits through the on-true label having called exactly `a` — the
call to `b` is never executed. -/
theorem claim_C2_short_circuit (tok : Nat) (l r : Expr) (cb : CodeBlock)
    (lt lf : Nat) :
    (ToTacC (Expr.binaryOp tok .opAnd l r) cb lt lf
      = (let (nc, cb0) := cb.CreateLabel
         let (_, lc, cb1) := ToTacC l cb0 nc lf
         let (_, rc, cb2) := ToTacC r cb1 lt lf
         (none, lc ++ [.labelDef nc] ++ rc, cb2)))
    ∧ (ToTacC (Expr.binaryOp tok .opOr l r) cb lt lf
      = (let (nc, cb0) := cb.CreateLabel
         let (_, lc, cb1) := ToTacC l cb0 lt nc
         let (_, rc, cb2) := ToTacC r cb1 lt lf
         (none, lc ++ [.labelDef nc] ++ rc, cb2)))
    ∧ run (fun s => if s = "a" then 1 else 0)
        (ToTacC (Expr.binaryOp 0 .opOr
            (Expr.functionCall 1 ⟨"a", .tBool, []⟩ [])
            (Expr.functionCall 2 ⟨"b", .tBool, []⟩ []))
          ⟨⟨⟨"DIM", .tInt, []⟩, ⟨"DOFS", .tInt, []⟩⟩, 0, 0⟩ 100 101).2.1
        20 0 [] []
      = .exited 100 ["a"] := by
  refine ⟨?_, ?_, ?_⟩
  · simp [ToTacC, IsRelOp]
  · simp [ToTacC, IsRelOp]
  · have hp : (ToTacC (Expr.binaryOp 0 .opOr
          (Expr.functionCall 1 ⟨"a", .tBool, []⟩ [])
          (Expr.functionCall 2 ⟨"b", .tBool, []⟩ []))
        ⟨⟨⟨"DIM", .tInt, []⟩, ⟨"DOFS", .tInt, []⟩⟩, 0, 0⟩ 100 101).2.1
        = [.instr .opCall (some (.temp 0 .tBool))
             (some (.procName ⟨"a", .tBool, []⟩)) none,
           .instr .opEqual (some (.label 100)) (some (.temp 0 .tBool))
             (some (.const 1)),
           gotoInstr 0,
           .labelDef 0,
           .instr .opCall (some (.temp 1 .tBool))
             (some (.procName ⟨"b", .tBool, []⟩)) none,
           .instr .opEqual (some (.label 100)) (some (.temp 1 .tBool))
             (some (.const 1)),
           gotoInstr 101] := by
      simp [ToTacC, ToTacV, tacParamsLoop, CodeBlock.CreateTemp,
        CodeBlock.CreateLabel, IsRelOp, gotoInstr]
    rw [hp]
    decide


/-- One step per subsequent dimension, exactly as claim C1 states the
offset accumulation: for each dimension d from 2 up to n, multiply the
accumulated index by the DIM intrinsic's result for that dimension, then
add that dimension's index expression — lowered to a value when it was
supplied, the constant 0 when the dimension number exceeds the number of
supplied indices. -/
def specAccumLoop (dimSym : CSymProc) (sym : CSymbol) (ptrCase : Bool)
    (idxs : List Expr) (n : Nat) : Nat → TacAddr → CodeBlock →
    TacAddr × List TacInstr × CodeBlock
  | d, idx, cb =>
    if h : d > n then (idx, [], cb)
    else
      let (dimv, cDim, cb1) := emitDIMCall dimSym sym ptrCase (Int.ofNat d) cb
      let (tm, cb2) := cb1.CreateTemp
      let tMul : TacAddr := .temp tm .tInt
      let (iv, cI, cb3) := addIndexStep idxs (d - 1) cb2
      let (ta, cb4) := cb3.CreateTemp
      let tAdd : TacAddr := .temp ta .tInt
      let (res, cRest, cb5) := specAccumLoop dimSym sym ptrCase idxs n (d + 1) tAdd cb4
      (res,
       cDim ++ [TacInstr.instr .opMul (some tMul) (some idx) (some dimv)]
            ++ cI ++ [TacInstr.instr .opAdd (some tAdd) (some tMul) (some iv)]
            ++ cRest,
       cb5)
termination_by d idx cb => n + 1 - d
decreasing_by
  omega

/-- The array-designator value lowering as claim C1 states it: take the
array's base address (the symbol itself when it is already pointer-typed,
otherwise its address into a fresh pointer temporary, first); start from
the first supplied index; accumulate over each subsequent dimension via
`specAccumLoop`; multiply by the element size; add the DOFS intrinsic's
result; add the base address; and return a Reference address — a
temporary holding the computed pointer, tagged with the designator's
symbol. -/
def specArrayDesignatorToTac (tok : Nat) (sym : CSymbol) (idxs : List Expr)
    (cb : CodeBlock) : TacAddr × List TacInstr × CodeBlock :=
  let dimSym := cb.owner.dim
  let dofsSym := cb.owner.dofs
  let ptrCase := sym.dataType.IsPointer
  let dataType := stripPtr sym.dataType
  let (id, c0, cb1) :=
    if ptrCase then ((TacAddr.name sym), ([] : List TacInstr), cb)
    else
      let (tn, cb') := cb.CreateTemp
      let t : TacAddr := .temp tn (.tPtr sym.dataType)
      (t, [TacInstr.instr .opAddress (some t) (some (.name sym)) none], cb')
  let dataSize := dataType.GetBaseType.GetSize
  let n := dataType.ndim
  let (v0, cV, cb2) := addIndexStep idxs 0 cb1
  let (acc, cAcc, cb3) := specAccumLoop dimSym sym ptrCase idxs n 2 v0 cb2
  let (tn1, cb4) := cb3.CreateTemp
  let t1 : TacAddr := .temp tn1 .tInt
  let (ofs, cOfs, cb5) := emitDOFSCall dofsSym sym ptrCase cb4
  let (tn2, cb6) := cb5.CreateTemp
  let t2 : TacAddr := .temp tn2 .tInt
  let (tn3, cb7) := cb6.CreateTemp
  let t3 : TacAddr := .temp tn3 .tInt
  (.ref tn3 .tInt sym,
   c0 ++ cV ++ cAcc
      ++ [TacInstr.instr .opMul (some t1) (some acc) (some (.const dataSize))]
      ++ cOfs
      ++ [TacInstr.instr .opAdd (some t2) (some t1) (some ofs)]
      ++ [TacInstr.instr .opAdd (some t3) (some id) (some t2)],
   cb7)


/-- Alignment of the source dimension loop (add the current index first,
then look ahead with a DIM multiply) with the claim's accumulation loop
(multiply by DIM first, then add the next index): from any iteration
`1 ≤ j ≤ n - 1` onwards, with an accumulated index value in hand, the
source loop emits the add for dimension j+1 and then exactly the claim's
steps for dimensions j+2 .. n. -/
theorem arrayIdxLoop_bridge (sym : CSymbol) (dimSym : CSymProc)
    (ptrCase : Bool) (idxs : List Expr) (n : Nat) :
    ∀ m j v cb, j + m + 1 = n → 1 ≤ j →
    arrayIdxLoop sym dimSym ptrCase idxs n j (some v) cb =
      (let pc := addIndexStep idxs j cb
       let t : TacAddr := .temp pc.2.2.ntemp .tInt
       let cb2 : CodeBlock := { pc.2.2 with ntemp := pc.2.2.ntemp + 1 }
       let sc := specAccumLoop dimSym sym ptrCase idxs n (j + 2) t cb2
       (some sc.1,
        pc.2.1 ++ [TacInstr.instr .opAdd (some t) (some v) (some pc.1)] ++ sc.2.1,
        sc.2.2)) := by
  intro m
  induction m with
  | zero =>
      intro j v cb hj h1
      have hn : n = j + 1 := by omega
      subst hn
      rcases hP : addIndexStep idxs j cb with ⟨prev, cp, cbp⟩
      conv_lhs => rw [arrayIdxLoop]
      rw [dif_pos (show j < j + 1 by omega)]
      simp only [hP, CodeBlock.CreateTemp]
      rw [if_pos (show j = j + 1 - 1 by omega)]
      conv_rhs => rw [specAccumLoop]
      rw [dif_pos (show j + 2 > j + 1 by omega)]
      simp
  | succ m ih =>
      intro j v cb hj h1
      have hlt : j < n := by omega
      have hne : ¬ (j = n - 1) := by omega
      have hd : ¬ (j + 2 > n) := by omega
      have hI : (Int.ofNat (j + 2)) = Int.ofNat j + 2 := by simp
      have ih' : ∀ w cbw, arrayIdxLoop sym dimSym ptrCase idxs n (j + 1) (some w) cbw =
          (let pc := addIndexStep idxs (j + 1) cbw
           let t : TacAddr := .temp pc.2.2.ntemp .tInt
           let cb2 : CodeBlock := { pc.2.2 with ntemp := pc.2.2.ntemp + 1 }
           let sc := specAccumLoop dimSym sym ptrCase idxs n (j + 1 + 2) t cb2
           (some sc.1,
            pc.2.1 ++ [TacInstr.instr .opAdd (some t) (some w) (some pc.1)] ++ sc.2.1,
            sc.2.2)) :=
        fun w cbw => ih (j + 1) w cbw (by omega) (by omega)
      rcases hP : addIndexStep idxs j cb with ⟨prev, cp, cbp⟩
      conv_lhs => rw [arrayIdxLoop]
      rw [dif_pos hlt]
      simp only [hP, CodeBlock.CreateTemp]
      rw [if_neg hne]
      simp only [ih']
      conv_rhs => rw [specAccumLoop]
      rw [dif_neg hd, hI]
      simp only [hP, CodeBlock.CreateTemp]
      simp [List.append_assoc, show j + 1 + 2 = j + 2 + 1 from by omega,
        show j + 2 - 1 = j + 1 from by omega]
/-- Entry of the source dimension loop at iteration 0 with no accumulated
index: the first index expression is lowered as the initial accumulated
index, and the loop then performs exactly the claim's accumulation steps
for dimensions 2 .. n. -/
theorem arrayIdxLoop_start (sym : CSymbol) (dimSym : CSymProc)
    (ptrCase : Bool) (idxs : List Expr) (n : Nat) (hn : 1 ≤ n) :
    ∀ cb, arrayIdxLoop sym dimSym ptrCase idxs n 0 none cb =
      (let p0 := addIndexStep idxs 0 cb
       let sc := specAccumLoop dimSym sym ptrCase idxs n 2 p0.1 p0.2.2
       (some sc.1, p0.2.1 ++ sc.2.1, sc.2.2)) := by
  intro cb
  rcases hP : addIndexStep idxs 0 cb with ⟨v0, c0, cb0⟩
  by_cases h1 : n = 1
  · subst h1
    conv_lhs => rw [arrayIdxLoop]
    rw [dif_pos (show 0 < 1 by omega)]
    simp only [hP, if_true]
    conv_rhs => rw [specAccumLoop]
    rw [dif_pos (show 2 > 1 by omega)]
    simp
  · have hne : ¬ ((0 : Nat) = n - 1) := by omega
    have hd : ¬ (2 > n) := by omega
    have ih' : ∀ w cbw, arrayIdxLoop sym dimSym ptrCase idxs n 1 (some w) cbw =
        (let pc := addIndexStep idxs 1 cbw
         let t : TacAddr := .temp pc.2.2.ntemp .tInt
         let cb2 : CodeBlock := { pc.2.2 with ntemp := pc.2.2.ntemp + 1 }
         let sc := specAccumLoop dimSym sym ptrCase idxs n (1 + 2) t cb2
         (some sc.1,
          pc.2.1 ++ [TacInstr.instr .opAdd (some t) (some w) (some pc.1)] ++ sc.2.1,
          sc.2.2)) :=
      fun w cbw =>
        arrayIdxLoop_bridge sym dimSym ptrCase idxs n (n - 2) 1 w cbw
          (by omega) (by omega)
    conv_lhs => rw [arrayIdxLoop]
    rw [dif_pos (show 0 < n by omega)]
    simp only [hP]
    rw [if_neg hne]
    simp only [ih']
    conv_rhs => rw [specAccumLoop]
    rw [dif_neg hd]
    simp [CodeBlock.CreateTemp, List.append_assoc]

/-- **C1.** For every lowering of an array designator with k supplied
indices over an n-dimensional array (1 ≤ k ≤ n), the emitted code and
result are exactly as the claim states them (see
`specArrayDesignatorToTac`): the linear offset starts from the first
index; for each subsequent dimension the accumulated index is multiplied
by the DIM intrinsic's result for that dimension and the next index
expression is added (a constant 0 when the dimension number exceeds k);
the offset is then multiplied by the element size, the DOFS intrinsic's
result is added, the array's base address is added (the address of the
array being taken first when the symbol is not already pointer-typed),
and the result is a Reference address: a temporary holding the computed
pointer, tagged with the designator's symbol. -/
theorem claim_C1_array_designator_lowering (tok : Nat) (sym : CSymbol)
    (idxs : List Expr) (cb : CodeBlock)
    (hk : 1 ≤ idxs.length)
    (hkn : idxs.length ≤ (stripPtr sym.dataType).ndim) :
    ToTacV (Expr.arrayDesignator tok sym idxs) cb
      = specArrayDesignatorToTac tok sym idxs cb := by
  have hn : 1 ≤ (stripPtr sym.dataType).ndim := le_trans hk hkn
  conv_lhs => rw [ToTacV]
  rw [specArrayDesignatorToTac]
  simp only [arrayIdxLoop_start _ _ _ _ _ hn]
  simp [List.append_assoc]

/-- Witness for C1 at a concrete input: `a[0][1]` on
`a : 2 x 3 x integer` (two indices, two dimensions). -/
theorem claim_C1_witness :
    1 ≤ ([Expr.constant 1 (some .tInt) 0, Expr.constant 2 (some .tInt) 1] : List Expr).length
    ∧ ([Expr.constant 1 (some .tInt) 0, Expr.constant 2 (some .tInt) 1] : List Expr).length
        ≤ (stripPtr (CSymbol.mk "a" (.tArray (some 2) (.tArray (some 3) .tInt))).dataType).ndim
    ∧ ToTacV (Expr.arrayDesignator 0
          ⟨"a", .tArray (some 2) (.tArray (some 3) .tInt)⟩
          [Expr.constant 1 (some .tInt) 0, Expr.constant 2 (some .tInt) 1])
        ⟨⟨⟨"DIM", .tInt, [.tPtr .tNull, .tInt]⟩, ⟨"DOFS", .tInt, [.tPtr .tNull]⟩⟩, 0, 0⟩
      = specArrayDesignatorToTac 0
          ⟨"a", .tArray (some 2) (.tArray (some 3) .tInt)⟩
          [Expr.constant 1 (some .tInt) 0, Expr.constant 2 (some .tInt) 1]
          ⟨⟨⟨"DIM", .tInt, [.tPtr .tNull, .tInt]⟩, ⟨"DOFS", .tInt, [.tPtr .tNull]⟩⟩, 0, 0⟩ :=
  ⟨by decide, by decide,
   claim_C1_array_designator_lowering 0
     ⟨"a", .tArray (some 2) (.tArray (some 3) .tInt)⟩
     [Expr.constant 1 (some .tInt) 0, Expr.constant 2 (some .tInt) 1]
     ⟨⟨⟨"DIM", .tInt, [.tPtr .tNull, .tInt]⟩, ⟨"DOFS", .tInt, [.tPtr .tNull]⟩⟩, 0, 0⟩
     (by decide) (by decide)⟩


end Snupl
